import Mathlib

/-!
# Verification of the sql-rooms data/session glue layer

A shallow embedding, in Lean 4, of the pure decision logic of the
sql-rooms client application: session-list trimming and current-session
revalidation (store `partialize` / `migrate`), file-upload load-option
selection and the reserved-column rename step, sample-row collection with
its fallback, the out-of-memory error router, schema-name generation, the
DDL-enabled query tool, and the temporary-file lifecycle of the
import/export pipelines.

JavaScript strings are modelled as Lean `String`s, operated on through
their character lists; `generateSchemaName` is modelled at the UTF-16
code-unit level (`List Nat`) because its regex replacement acts per code
unit.  Asynchronous engine calls (queries, file loads, schema refreshes)
are modelled by oracles: `Except`-valued fields giving each call's
outcome, with the functions returning the trace of performed effects.
-/

/-! ## JavaScript string primitives -/

/-- `String.prototype.toLowerCase` restricted to the ASCII range (the
application only ever compares the lowercased text against ASCII
literals, so the Unicode cases are irrelevant here). -/
def jsToLowerChar (c : Char) : Char :=
  if 'A' ≤ c && c ≤ 'Z' then Char.ofNat (c.toNat + 32) else c

/-- Lowercase a whole string, per `jsToLowerChar`. -/
def jsToLower (s : String) : String :=
  ⟨s.data.map jsToLowerChar⟩

/-- `String.prototype.split(sep)` for a one-character separator: the list
is never empty, and splitting the empty string yields `[[]]`, as in JS. -/
def splitOnChar (sep : Char) : List Char → List (List Char)
  | [] => [[]]
  | c :: rest =>
    match splitOnChar sep rest with
    | [] => [[]]
    | grp :: grps => if c == sep then [] :: grp :: grps else (c :: grp) :: grps

/-- `fileName.toLowerCase().split('.').pop()`: the (lowercased) text after
the last dot, or the whole lowercased name if there is no dot. -/
def jsFileExtension (fileName : String) : String :=
  ⟨(splitOnChar '.' (jsToLower fileName).data).getLastD []⟩

/-- `text.split('\n')[0]`: the text before the first newline. -/
def jsFirstLine (text : String) : String :=
  ⟨(splitOnChar '\n' text.data).headD []⟩

/-- Characters matched by the regex class `\s` (ASCII part), also the set
removed by `String.prototype.trim`. -/
def isJsWhitespace (c : Char) : Bool :=
  c == ' ' || c == '\t' || c == '\n' || c == '\r' || c == '\x0b' || c == '\x0c'

/-- `String.prototype.trim`. -/
def jsTrim (s : String) : String :=
  ⟨((s.data.dropWhile isJsWhitespace).reverse.dropWhile isJsWhitespace).reverse⟩

/-- `haystack.includes(needle)` on character lists. -/
def listHasSubstring (pat : List Char) : List Char → Bool
  | [] => pat.isEmpty
  | c :: rest => pat.isPrefixOf (c :: rest) || listHasSubstring pat rest

/-- `String.prototype.includes`. -/
def strIncludes (s pat : String) : Bool :=
  listHasSubstring pat.data s.data

/-! ## Sessions: store `partialize` and `migrate` (src/store.ts)

`Session` keeps the fields the trimming logic reads: the id, the number
of analysis results (`none` models an absent `analysisResults` field) and
the creation timestamp in milliseconds (`none` models an absent
`createdAt`, which `new Date(b.createdAt || 0)` turns into 0). -/

structure Session where
  id : String
  analysisResults : Option Nat
  createdAt : Option Int
deriving DecidableEq, Repr

/-- The fixed allow-list of example-session ids. -/
def exampleSessionIds : List String :=
  ["xefziloqhpwqlj8kb31szv1q", "wz49jbb35umuwi7gom6cnk5g", "qejzk4rjeofiaby238nhdxnb"]

/-- `exampleSessionIds.includes(session.id)`. -/
def isExampleSession (s : Session) : Bool :=
  exampleSessionIds.contains s.id

/-- `session.analysisResults && session.analysisResults.length > 0`. -/
def sessionHasContent (s : Session) : Bool :=
  match s.analysisResults with
  | some len => decide (len > 0)
  | none => false

/-- `new Date(s.createdAt || 0).getTime()`. -/
def sessionDate (s : Session) : Int :=
  s.createdAt.getD 0

/-- Insert into a list sorted by date descending (helper for the JS
`sort((a, b) => dateB - dateA)` call). -/
def insertByDateDesc (x : Session) : List Session → List Session
  | [] => [x]
  | y :: ys =>
    if sessionDate y ≤ sessionDate x then x :: y :: ys else y :: insertByDateDesc x ys

/-- `sessions.sort((a, b) => new Date(b.createdAt || 0).getTime() - new
Date(a.createdAt || 0).getTime())`: sort by creation date, latest first
(modelled as insertion sort; the claims only use that it permutes). -/
def sortByDateDesc : List Session → List Session
  | [] => []
  | x :: xs => insertByDateDesc x (sortByDateDesc xs)

/-- The session-list trimming shared by the store's `partialize` and
`migrate` callbacks: split off the example sessions, drop empty regular
sessions, keep the first 10 remaining regular sessions, sort those by
date descending, and append all example sessions at the bottom. -/
def partializeSessions (sessions : List Session) : List Session :=
  let exampleSessions := sessions.filter isExampleSession
  let regularSessions := sessions.filter (fun s => !isExampleSession s)
  let sessionsWithContent := regularSessions.filter sessionHasContent
  let limitedRegularSessions := sessionsWithContent.take 10
  let sortedRegularSessions := sortByDateDesc limitedRegularSessions
  sortedRegularSessions ++ exampleSessions

/-- `partialize`'s current-session revalidation: keep the pointer if it
still resolves, otherwise use the first trimmed session's id, or `''`
when the trimmed list is empty. -/
def partializeCurrentSessionId (sessions : List Session) (currentSessionId : String) :
    String :=
  let limitedSessions := partializeSessions sessions
  if limitedSessions.any (fun s => s.id == currentSessionId) then currentSessionId
  else ((limitedSessions.head?.map Session.id).getD "")

/-- `migrate`'s current-session revalidation: the pointer is re-pointed
only when it does not resolve AND is truthy (non-empty); an empty pointer
is left unchanged. -/
def migrateCurrentSessionId (sessions : List Session) (currentSessionId : String) :
    String :=
  let limitedSessions := partializeSessions sessions
  if !(limitedSessions.any (fun s => s.id == currentSessionId)) && currentSessionId != "" then
    ((limitedSessions.head?.map Session.id).getD "")
  else currentSessionId

theorem insertByDateDesc_perm (x : Session) (l : List Session) :
    List.Perm (insertByDateDesc x l) (x :: l) := by
  induction l with
  | nil => simp [insertByDateDesc]
  | cons y ys ih =>
    unfold insertByDateDesc
    split
    · exact List.Perm.refl _
    · exact ((ih.cons y).trans (List.Perm.swap x y ys))

theorem sortByDateDesc_perm (l : List Session) :
    List.Perm (sortByDateDesc l) l := by
  induction l with
  | nil => exact List.Perm.refl _
  | cons x xs ih =>
    exact (insertByDateDesc_perm x (sortByDateDesc xs)).trans (ih.cons x)

theorem mem_sortByDateDesc {s : Session} {l : List Session} :
    s ∈ sortByDateDesc l ↔ s ∈ l :=
  (sortByDateDesc_perm l).mem_iff

/-- C6: the persisted session list holds at most 10 non-example sessions,
all non-empty, plus exactly the input's example sessions, which survive
regardless of the cap. -/
theorem partialize_session_cap (sessions : List Session) :
    ((partializeSessions sessions).filter (fun s => !isExampleSession s)).length ≤ 10
    ∧ (∀ s ∈ partializeSessions sessions,
        isExampleSession s = false → sessionHasContent s = true)
    ∧ (partializeSessions sessions).filter isExampleSession
        = sessions.filter isExampleSession := by
  have hmem : ∀ s ∈ sortByDateDesc
      (((sessions.filter (fun s => !isExampleSession s)).filter sessionHasContent).take 10),
      isExampleSession s = false ∧ sessionHasContent s = true := by
    intro s hs
    rw [mem_sortByDateDesc] at hs
    have hs' := List.mem_of_mem_take hs
    rw [List.mem_filter] at hs'
    obtain ⟨hs'', hcontent⟩ := hs'
    rw [List.mem_filter] at hs''
    obtain ⟨_, hex⟩ := hs''
    exact ⟨by simpa using hex, hcontent⟩
  refine ⟨?_, ?_, ?_⟩
  · simp only [partializeSessions, List.filter_append]
    have h1 : (sortByDateDesc
        (((sessions.filter (fun s => !isExampleSession s)).filter sessionHasContent).take 10)).filter
          (fun s => !isExampleSession s)
        = sortByDateDesc
          (((sessions.filter (fun s => !isExampleSession s)).filter sessionHasContent).take 10) := by
      rw [List.filter_eq_self]
      intro a ha
      simp [(hmem a ha).1]
    have h2 : (sessions.filter isExampleSession).filter (fun s => !isExampleSession s) = [] := by
      rw [List.filter_eq_nil_iff]
      intro a ha
      rw [List.mem_filter] at ha
      simp [ha.2]
    rw [h1, h2, List.append_nil,
      (sortByDateDesc_perm _).length_eq, List.length_take]
    exact min_le_left _ _
  · intro s hs hex
    simp only [partializeSessions, List.mem_append] at hs
    rcases hs with hs | hs
    · exact (hmem s hs).2
    · rw [List.mem_filter] at hs
      rw [hs.2] at hex
      cases hex
  · simp only [partializeSessions, List.filter_append]
    have h1 : (sortByDateDesc
        (((sessions.filter (fun s => !isExampleSession s)).filter sessionHasContent).take 10)).filter
          isExampleSession = [] := by
      rw [List.filter_eq_nil_iff]
      intro a ha
      simp [(hmem a ha).1]
    have h2 : (sessions.filter isExampleSession).filter isExampleSession
        = sessions.filter isExampleSession := by
      rw [List.filter_eq_self]
      intro a ha
      exact (List.mem_filter.mp ha).2
    rw [h1, h2, List.nil_append]

/-- C6 witness: a concrete non-example session kept by the trimming is
indeed non-empty. -/
theorem partialize_session_cap_witness :
    sessionHasContent ⟨"k", some 3, some 7⟩ = true :=
  (partialize_session_cap [⟨"k", some 3, some 7⟩]).2.1
    ⟨"k", some 3, some 7⟩ (by decide) (by decide)

/-- C1 counterexample: (i) `partialize` on a single empty regular session
trims the list to `[]` and sets the pointer to `""`, which resolves to no
session; (ii) `migrate` on a non-empty trimmed list but an empty incoming
pointer leaves the pointer `""`, which resolves to no session. -/
theorem current_session_counterexample :
    (partializeSessions [⟨"s1", some 0, some 0⟩] = []
      ∧ partializeCurrentSessionId [⟨"s1", some 0, some 0⟩] "s1" = ""
      ∧ (partializeSessions [⟨"s1", some 0, some 0⟩]).any
          (fun s => s.id == partializeCurrentSessionId [⟨"s1", some 0, some 0⟩] "s1")
          = false)
    ∧ (partializeSessions [⟨"m1", some 2, some 5⟩] ≠ []
      ∧ migrateCurrentSessionId [⟨"m1", some 2, some 5⟩] "" = ""
      ∧ (partializeSessions [⟨"m1", some 2, some 5⟩]).any
          (fun s => s.id == migrateCurrentSessionId [⟨"m1", some 2, some 5⟩] "")
          = false) := by
  decide

/-- C1 amended: a surviving pointer is kept by both `partialize` and
`migrate`; `partialize` re-points to a session of the trimmed list
whenever that list is non-empty and to `""` when it is empty; `migrate`
re-points to a session of the trimmed list whenever the list is non-empty
and the incoming pointer is non-empty. -/
theorem current_session_revalidation (sessions : List Session) (currentSessionId : String) :
    ((partializeSessions sessions).any (fun s => s.id == currentSessionId) = true →
      partializeCurrentSessionId sessions currentSessionId = currentSessionId
      ∧ migrateCurrentSessionId sessions currentSessionId = currentSessionId)
    ∧ (partializeSessions sessions ≠ [] →
        (partializeSessions sessions).any
          (fun s => s.id == partializeCurrentSessionId sessions currentSessionId) = true)
    ∧ (partializeSessions sessions = [] →
        partializeCurrentSessionId sessions currentSessionId = "")
    ∧ (partializeSessions sessions ≠ [] → currentSessionId ≠ "" →
        (partializeSessions sessions).any
          (fun s => s.id == migrateCurrentSessionId sessions currentSessionId) = true) := by
  refine ⟨?_, ?_, ?_, ?_⟩
  · intro hany
    constructor
    · simp [partializeCurrentSessionId, hany]
    · simp [migrateCurrentSessionId, hany]
  · intro hne
    obtain ⟨x, xs, hx⟩ := List.exists_cons_of_ne_nil hne
    by_cases hany : (partializeSessions sessions).any (fun s => s.id == currentSessionId) = true
    · simp [partializeCurrentSessionId, hany]
    · rw [Bool.not_eq_true] at hany
      simp only [partializeCurrentSessionId, hany]
      rw [hx]
      simp
  · intro hnil
    simp [partializeCurrentSessionId, hnil]
  · intro hne hcur
    obtain ⟨x, xs, hx⟩ := List.exists_cons_of_ne_nil hne
    by_cases hany : (partializeSessions sessions).any (fun s => s.id == currentSessionId) = true
    · simp [migrateCurrentSessionId, hany]
    · rw [Bool.not_eq_true] at hany
      have hbne : (currentSessionId != "") = true := by
        simpa [bne] using hcur
      simp only [migrateCurrentSessionId, hany, hbne]
      rw [hx]
      simp

/-- C1 witness: on a concrete state whose current pointer was trimmed
away, both re-pointings resolve to a session of the trimmed list. -/
theorem current_session_revalidation_witness :
    ((partializeSessions [⟨"a", some 1, some 5⟩]).any
      (fun s => s.id == partializeCurrentSessionId [⟨"a", some 1, some 5⟩] "zzz") = true)
    ∧ ((partializeSessions [⟨"a", some 1, some 5⟩]).any
      (fun s => s.id == migrateCurrentSessionId [⟨"a", some 1, some 5⟩] "zzz") = true) :=
  ⟨(current_session_revalidation [⟨"a", some 1, some 5⟩] "zzz").2.1 (by decide),
   (current_session_revalidation [⟨"a", some 1, some 5⟩] "zzz").2.2.2 (by decide) (by decide)⟩

/-! ## Global out-of-memory error handler (src/utils/globalErrorHandler.ts) -/

/-- A JS error value as the handler sees it: an optional `message` field
and the `toString()` text. -/
structure JsError where
  message : Option String
  asString : String
deriving DecidableEq

/-- `error?.message || error?.toString() || ''`: the message if truthy
(non-empty), else the `toString()` text if truthy, else `''`. -/
def jsErrorText (e : JsError) : String :=
  match e.message with
  | some m => if m ≠ "" then m else (if e.asString ≠ "" then e.asString else "")
  | none => if e.asString ≠ "" then e.asString else ""

/-- `isOutOfMemoryError`: the lowercased error text contains one of the
five known out-of-memory substrings. -/
def isOutOfMemoryError (e : JsError) : Bool :=
  let errorString := jsToLower (jsErrorText e)
  strIncludes errorString "out of memory"
    || strIncludes errorString "failed to allocate"
    || strIncludes errorString "3.1 gib/3.1 gib used"
    || strIncludes errorString "memory limit exceeded"
    || strIncludes errorString "unused blocks cannot be evicted"

/-- `handleOutOfMemoryError`, with `handlerSet` modelling whether
`setGlobalErrorHandler` registered a modal callback.  The first component
is the returned boolean, the second records whether the modal handler was
invoked. -/
def handleOutOfMemoryError (handlerSet : Bool) (e : JsError) : Bool × Bool :=
  if !isOutOfMemoryError e then (false, false)
  else if handlerSet then (true, true)
  else (false, false)

/-- C5: with a registered modal handler, the error is routed to the modal
iff its lowercased text contains a known out-of-memory substring; a
non-matching error always yields `false` with no handler invocation. -/
theorem handleOutOfMemoryError_routing (handlerSet : Bool) (e : JsError) :
    (handlerSet = true →
      ((handleOutOfMemoryError handlerSet e).2 = true ↔ isOutOfMemoryError e = true))
    ∧ ((handleOutOfMemoryError handlerSet e).2 = true → isOutOfMemoryError e = true)
    ∧ (isOutOfMemoryError e = false →
        handleOutOfMemoryError handlerSet e = (false, false)) := by
  refine ⟨?_, ?_, ?_⟩
  · intro hset
    subst hset
    by_cases hoom : isOutOfMemoryError e = true
    · simp [handleOutOfMemoryError, hoom]
    · rw [Bool.not_eq_true] at hoom
      simp [handleOutOfMemoryError, hoom]
  · intro hinv
    by_contra hoom
    rw [Bool.not_eq_true] at hoom
    simp [handleOutOfMemoryError, hoom] at hinv
  · intro hoom
    simp [handleOutOfMemoryError, hoom]

/-- C5 witness: a concrete matching error is routed to the modal, and a
concrete non-matching error is not. -/
theorem handleOutOfMemoryError_routing_witness :
    ((handleOutOfMemoryError true ⟨some "Error: Out of Memory in query", "err"⟩).2 = true
      ↔ isOutOfMemoryError ⟨some "Error: Out of Memory in query", "err"⟩ = true)
    ∧ handleOutOfMemoryError true ⟨some "syntax error near SELECT", "err"⟩ = (false, false) :=
  ⟨(handleOutOfMemoryError_routing true ⟨some "Error: Out of Memory in query", "err"⟩).1 rfl,
   (handleOutOfMemoryError_routing true ⟨some "syntax error near SELECT", "err"⟩).2.2 (by decide)⟩

/-! ## Schema-name generation (src/utils/importDuckDB.ts)

`generateSchemaName` chains two regex replacements, `toLowerCase` and
`substring(0, 30)`.  JS regexes and `substring` act on UTF-16 code units,
so this function is embedded over `List Nat` of code units. -/

/-- `toLowerCase` on one UTF-16 code unit (ASCII range; by the time it is
applied every unit is ASCII alphanumeric or `_`). -/
def toLowerCodeUnit (n : Nat) : Nat :=
  if 65 ≤ n ∧ n ≤ 90 then n + 32 else n

/-- Membership in the regex class `[a-zA-Z0-9_]`. -/
def isWordCodeUnit (n : Nat) : Bool :=
  (97 ≤ n && n ≤ 122) || (65 ≤ n && n ≤ 90) || (48 ≤ n && n ≤ 57) || (n == 95)

/-- Code units of `".db"`. -/
def dbSuffix : List Nat := [46, 100, 98]

/-- Code units of `".duckdb"`. -/
def duckdbSuffix : List Nat := [46, 100, 117, 99, 107, 100, 98]

/-- `filename.replace(/\.(db|duckdb)$/i, '')`: the regex is anchored at
the end, matches case-insensitively, and the leftmost match wins, so a
trailing `.duckdb` is stripped in preference to its trailing `.db`. -/
def stripDbExtension (s : List Nat) : List Nat :=
  let lower := s.map toLowerCodeUnit
  if duckdbSuffix.isSuffixOf lower then s.take (s.length - 7)
  else if dbSuffix.isSuffixOf lower then s.take (s.length - 3)
  else s

/-- `generateSchemaName`: strip a trailing `.db`/`.duckdb`, replace every
unit outside `[a-zA-Z0-9_]` by `_` (95), lowercase, and keep the first 30
units.  Totality and determinism are immediate from it being a Lean
function. -/
def generateSchemaName (filename : List Nat) : List Nat :=
  (((stripDbExtension filename).map
      (fun n => if isWordCodeUnit n then n else 95)).map toLowerCodeUnit).take 30

/-- C9: every output of `generateSchemaName` has at most 30 units, each a
lowercase letter, a digit, or an underscore. -/
theorem generateSchemaName_shape (filename : List Nat) :
    (generateSchemaName filename).length ≤ 30
    ∧ ∀ c ∈ generateSchemaName filename,
        (97 ≤ c ∧ c ≤ 122) ∨ (48 ≤ c ∧ c ≤ 57) ∨ c = 95 := by
  constructor
  · rw [generateSchemaName, List.length_take]
    exact min_le_left _ _
  · intro c hc
    rw [generateSchemaName] at hc
    have hc' := List.mem_of_mem_take hc
    rw [List.mem_map] at hc'
    obtain ⟨b, hb, hlow⟩ := hc'
    rw [List.mem_map] at hb
    obtain ⟨a, _, hrepl⟩ := hb
    subst hlow
    subst hrepl
    by_cases hw : isWordCodeUnit a = true
    · simp only [hw, if_true]
      simp only [isWordCodeUnit, Bool.or_eq_true, decide_eq_true_eq,
        Bool.and_eq_true, beq_iff_eq] at hw
      unfold toLowerCodeUnit
      split <;> omega
    · rw [Bool.not_eq_true] at hw
      simp only [hw, Bool.false_eq_true, if_false]
      unfold toLowerCodeUnit
      split <;> omega

/-- C9 witness: evaluating the theorem's membership clause at the code
units of `"My File.DB"` (which maps to `"my_file"`). -/
theorem generateSchemaName_shape_witness :
    (generateSchemaName [77, 121, 32, 70, 105, 108, 101, 46, 68, 66]).length ≤ 30
    ∧ ((97 ≤ 109 ∧ 109 ≤ 122) ∨ (48 ≤ 109 ∧ 109 ≤ 57) ∨ 109 = 95) :=
  ⟨(generateSchemaName_shape [77, 121, 32, 70, 105, 108, 101, 46, 68, 66]).1,
   (generateSchemaName_shape [77, 121, 32, 70, 105, 108, 101, 46, 68, 66]).2 109 (by decide)⟩

/-! ## Sample-row collection (src/utils/collectSampleRows.ts) -/

/-- A cell value as returned by the engine binding: JS numbers, wide
integers (`bigint`), strings, or null. -/
inductive SqlValue where
  | numVal (n : Int)
  | bigIntVal (n : Int)
  | strVal (s : String)
  | nullVal
deriving DecidableEq

/-- A result row: association list from column name to value. -/
abbrev SqlRow : Type := List (String × SqlValue)

/-- `typeof colValue === 'bigint' ? Number(colValue) : colValue`. -/
def coerceBigInt : SqlValue → SqlValue
  | .bigIntVal n => .numVal n
  | v => v

/-- Whether a value is still a `bigint`. -/
def isBigIntVal : SqlValue → Bool
  | .bigIntVal _ => true
  | _ => false

/-- The per-cell coercion applied while copying a result row out. -/
def coerceRow (r : SqlRow) : SqlRow :=
  r.map (fun p => (p.1, coerceBigInt p.2))

/-- The reservoir-sampling query text. -/
def sampleQuery (tableName : String) : String :=
  "SELECT * FROM " ++ tableName ++ " USING SAMPLE 10"

/-- The row-limited fallback query text. -/
def limitQuery (tableName : String) : String :=
  "SELECT * FROM " ++ tableName ++ " LIMIT 10"

/-- `collectSampleRows`: run the `USING SAMPLE 10` query; on failure fall
back to the `LIMIT 10` query; if both fail return `undefined` (`none`)
instead of propagating.  `runQuery` is the oracle giving the engine's
response to each query text. -/
def collectSampleRows (runQuery : String → Except String (List SqlRow))
    (tableName : String) : Option (List SqlRow) :=
  match runQuery (sampleQuery tableName) with
  | .ok rows => some (rows.map coerceRow)
  | .error _ =>
    match runQuery (limitQuery tableName) with
    | .ok rows => some (rows.map coerceRow)
    | .error _ => none

/-- C4: the sampling query is used when it succeeds; the fallback
row-limited query is used when sampling fails; two failures give
`undefined` rather than an error; and no returned value is a `bigint`. -/
theorem collectSampleRows_fallback (runQuery : String → Except String (List SqlRow))
    (tableName : String) :
    (∀ rows, runQuery (sampleQuery tableName) = .ok rows →
      collectSampleRows runQuery tableName = some (rows.map coerceRow))
    ∧ (∀ e rows, runQuery (sampleQuery tableName) = .error e →
        runQuery (limitQuery tableName) = .ok rows →
        collectSampleRows runQuery tableName = some (rows.map coerceRow))
    ∧ (∀ e e', runQuery (sampleQuery tableName) = .error e →
        runQuery (limitQuery tableName) = .error e' →
        collectSampleRows runQuery tableName = none)
    ∧ (∀ out, collectSampleRows runQuery tableName = some out →
        ∀ r ∈ out, ∀ p ∈ r, isBigIntVal p.2 = false) := by
  have hcoerce : ∀ (rows : List SqlRow), ∀ r ∈ rows.map coerceRow, ∀ p ∈ r,
      isBigIntVal p.2 = false := by
    intro rows r hr p hp
    rw [List.mem_map] at hr
    obtain ⟨r0, _, hr0⟩ := hr
    subst hr0
    rw [coerceRow, List.mem_map] at hp
    obtain ⟨p0, _, hp0⟩ := hp
    subst hp0
    cases p0.2 <;> simp [coerceBigInt, isBigIntVal]
  refine ⟨?_, ?_, ?_, ?_⟩
  · intro rows h
    simp [collectSampleRows, h]
  · intro e rows h1 h2
    simp [collectSampleRows, h1, h2]
  · intro e e' h1 h2
    simp [collectSampleRows, h1, h2]
  · intro out hout r hr p hp
    unfold collectSampleRows at hout
    rcases hs : runQuery (sampleQuery tableName) with e | rows
    · rw [hs] at hout
      rcases hl : runQuery (limitQuery tableName) with e' | rows'
      · rw [hl] at hout
        simp at hout
      · rw [hl] at hout
        simp only [Option.some.injEq] at hout
        subst hout
        exact hcoerce rows' r hr p hp
    · rw [hs] at hout
      simp only [Option.some.injEq] at hout
      subst hout
      exact hcoerce rows r hr p hp

/-- C4 witness: a concrete oracle whose sampling query fails and whose
fallback succeeds with a `bigint` cell, evaluated through the theorem. -/
theorem collectSampleRows_fallback_witness :
    collectSampleRows
      (fun q => if q = sampleQuery "t" then .error "sampling unsupported"
        else .ok [[("a", SqlValue.bigIntVal 5)]]) "t"
      = some [[("a", SqlValue.numVal 5)]]
    ∧ isBigIntVal ("a", SqlValue.numVal 5).2 = false :=
  ⟨(collectSampleRows_fallback
      (fun q => if q = sampleQuery "t" then .error "sampling unsupported"
        else .ok [[("a", SqlValue.bigIntVal 5)]]) "t").2.1
      "sampling unsupported" [[("a", SqlValue.bigIntVal 5)]] (by rfl) (by rfl),
   (collectSampleRows_fallback
      (fun q => if q = sampleQuery "t" then .error "sampling unsupported"
        else .ok [[("a", SqlValue.bigIntVal 5)]]) "t").2.2.2
      [[("a", SqlValue.numVal 5)]]
      (by decide) [("a", SqlValue.numVal 5)] (by decide) ("a", SqlValue.numVal 5) (by decide)⟩

/-! ## File upload pipeline (src/components/DataSourcesPanel.tsx) -/

/-- The `read_csv` load options passed to `connector.loadFile`; `delim` is
`none` when no explicit delimiter is given (pure auto-detection). -/
structure CsvLoadOptions where
  delim : Option String
  autoDetect : Bool
  sampleSize : Int
deriving DecidableEq

/-- `handleFileUpload`'s load-option selection: keyed on the lowercased
file extension and, for `.txt`, on delimiter counts in the first line of
the file's text.  `none` models leaving `loadOptions` `undefined`. -/
def handleFileUploadLoadOptions (fileName : String) (text : String) :
    Option CsvLoadOptions :=
  let fileExtension := jsFileExtension fileName
  if fileExtension == "pipe" || fileExtension == "psv" then
    some ⟨some "|", true, -1⟩
  else if fileExtension == "tsv" then
    some ⟨some "\t", true, -1⟩
  else if fileExtension == "txt" then
    let firstLine := jsFirstLine text
    let pipeCount := firstLine.data.count '|'
    let tabCount := firstLine.data.count '\t'
    let commaCount := firstLine.data.count ','
    if pipeCount > 0 then some ⟨some "|", true, -1⟩
    else if tabCount > 0 then some ⟨some "\t", true, -1⟩
    else if commaCount > 0 then some ⟨some ",", true, -1⟩
    else some ⟨none, true, -1⟩
  else none

/-- The load-option mapping as claim C2 words it: `.pipe`/`.psv` map to
`'|'`, `.tsv` to tab; a `.txt` file maps to `'|'` if its first line
contains a pipe, else tab if it contains a tab, else `','` if it contains
a comma, else auto-detection with no explicit delimiter; anything else
(in particular `.csv`, `.parquet`, `.json`) gets no options. -/
def specLoadOptions (fileName : String) (text : String) : Option CsvLoadOptions :=
  let ext := jsFileExtension fileName
  if ext == "pipe" || ext == "psv" then some ⟨some "|", true, -1⟩
  else if ext == "tsv" then some ⟨some "\t", true, -1⟩
  else if ext == "txt" then
    let firstLine := jsFirstLine text
    if '|' ∈ firstLine.data then some ⟨some "|", true, -1⟩
    else if '\t' ∈ firstLine.data then some ⟨some "\t", true, -1⟩
    else if ',' ∈ firstLine.data then some ⟨some ",", true, -1⟩
    else some ⟨none, true, -1⟩
  else none

/-- Events performed by the upload / drop handlers, in order. -/
inductive UploadEvent where
  | loadFile (opts : Option CsvLoadOptions)
  | describeTable
  | renameDefaultColumn
  | refreshSchemas
  | toastSuccess
  | toastError
  | oomCheck
deriving DecidableEq

/-- Outcomes of the awaited calls made by one file's import: reading the
file text (consulted only for `.txt`), `connector.loadFile`, the
`DESCRIBE` query (returning the created table's column names), the
`ALTER TABLE ... RENAME COLUMN` statement, and `refreshTableSchemas`. -/
structure UploadOracle where
  textRead : Except String String
  loadFile : Except String Unit
  describe : Except String (List String)
  rename : Except String Unit
  refresh : Except String Unit

/-- The effect of `ALTER TABLE t RENAME COLUMN "DEFAULT" TO DEFAULT_FLAG`
on the table's column list. -/
def renameDefaultCols (cols : List String) : List String :=
  cols.map (fun c => if c == "DEFAULT" then "DEFAULT_FLAG" else c)

/-- Events after the rename block of `handleFileUpload`: the schema
refresh, then the success toast — or, if the refresh rejects, the outer
catch (OOM check + error toast). -/
def uploadFinishEvents (o : UploadOracle) : List UploadEvent :=
  match o.refresh with
  | .ok _ => [.refreshSchemas, .toastSuccess]
  | .error _ => [.refreshSchemas, .oomCheck, .toastError]

/-- `handleFileUpload` (file-picker path): returns the trace of events
and the created table's column list (`none` when no table was created or
its columns are unknown because `DESCRIBE` failed).  A `.txt` file's
`file.text()` rejection escapes to the outer catch; a `DESCRIBE` or
rename failure is caught by the inner catch and the import continues. -/
def handleFileUpload (fileName : String) (o : UploadOracle) :
    List UploadEvent × Option (List String) :=
  match (if jsFileExtension fileName == "txt" then o.textRead else Except.ok "") with
  | .error _ => ([.oomCheck, .toastError], none)
  | .ok text =>
    let opts := handleFileUploadLoadOptions fileName text
    match o.loadFile with
    | .error _ => ([.loadFile opts, .oomCheck, .toastError], none)
    | .ok _ =>
      match o.describe with
      | .error _ =>
        ([.loadFile opts, .describeTable] ++ uploadFinishEvents o, none)
      | .ok cols =>
        if cols.contains "DEFAULT" then
          match o.rename with
          | .ok _ =>
            ([.loadFile opts, .describeTable, .renameDefaultColumn]
              ++ uploadFinishEvents o, some (renameDefaultCols cols))
          | .error _ =>
            ([.loadFile opts, .describeTable, .renameDefaultColumn]
              ++ uploadFinishEvents o, some cols)
        else
          ([.loadFile opts, .describeTable] ++ uploadFinishEvents o, some cols)

/-- The drag-and-drop path's load-option selection: same extension logic,
except that the default is the empty options object and a failure to read
a `.txt` file's content falls back to auto-detection instead of failing
the import. -/
def dropLoadOptions (fileName : String) (textResult : Except String String) :
    Option CsvLoadOptions :=
  let fileExtension := jsFileExtension fileName
  if fileExtension == "pipe" || fileExtension == "psv" then
    some ⟨some "|", true, -1⟩
  else if fileExtension == "tsv" then
    some ⟨some "\t", true, -1⟩
  else if fileExtension == "txt" then
    match textResult with
    | .ok text =>
      let firstLine := jsFirstLine text
      let pipeCount := firstLine.data.count '|'
      let tabCount := firstLine.data.count '\t'
      let commaCount := firstLine.data.count ','
      if pipeCount > 0 then some ⟨some "|", true, -1⟩
      else if tabCount > 0 then some ⟨some "\t", true, -1⟩
      else if commaCount > 0 then some ⟨some ",", true, -1⟩
      else some ⟨none, true, -1⟩
    | .error _ => some ⟨none, true, -1⟩
  else none

/-- The `FileDropzone` `onDrop` handler for one dropped file: per-file
try/catch (load, DEFAULT-column check/rename, success toast), then the
schema refresh that runs after the loop. -/
def handleFileDrop (fileName : String) (o : UploadOracle) :
    List UploadEvent × Option (List String) :=
  let opts := dropLoadOptions fileName o.textRead
  match o.loadFile with
  | .error _ => ([.loadFile opts, .oomCheck, .toastError, .refreshSchemas], none)
  | .ok _ =>
    match o.describe with
    | .error _ =>
      ([.loadFile opts, .describeTable, .toastSuccess, .refreshSchemas], none)
    | .ok cols =>
      if cols.contains "DEFAULT" then
        match o.rename with
        | .ok _ =>
          ([.loadFile opts, .describeTable, .renameDefaultColumn, .toastSuccess,
            .refreshSchemas], some (renameDefaultCols cols))
        | .error _ =>
          ([.loadFile opts, .describeTable, .renameDefaultColumn, .toastSuccess,
            .refreshSchemas], some cols)
      else
        ([.loadFile opts, .describeTable, .toastSuccess, .refreshSchemas], some cols)

/-- C2: the chosen load options agree with the documented
extension/first-line mapping, `.csv`/`.parquet`/`.json` get no explicit
options, and on a successful load the trace starts with the load call and
performs the schema refresh afterwards. -/
theorem upload_load_option_mapping (fileName text : String) (o : UploadOracle)
    (htext : o.textRead = .ok text) (hload : o.loadFile = .ok ()) :
    handleFileUploadLoadOptions fileName text = specLoadOptions fileName text
    ∧ (jsFileExtension fileName = "csv" ∨ jsFileExtension fileName = "parquet"
        ∨ jsFileExtension fileName = "json" →
        handleFileUploadLoadOptions fileName text = none)
    ∧ (handleFileUpload fileName o).1.head?
        = some (.loadFile (handleFileUploadLoadOptions fileName text))
    ∧ UploadEvent.refreshSchemas ∈ (handleFileUpload fileName o).1.tail := by
  have hmap : handleFileUploadLoadOptions fileName text = specLoadOptions fileName text := by
    unfold handleFileUploadLoadOptions specLoadOptions
    by_cases h1 : (jsFileExtension fileName == "pipe" || jsFileExtension fileName == "psv") = true
    · simp [h1]
    · rw [Bool.not_eq_true] at h1
      by_cases h2 : (jsFileExtension fileName == "tsv") = true
      · simp [h1, h2]
      · rw [Bool.not_eq_true] at h2
        by_cases h3 : (jsFileExtension fileName == "txt") = true
        · by_cases hp : '|' ∈ (jsFirstLine text).data
          · simp [h1, h2, h3, hp, List.count_pos_iff]
          · by_cases ht : '\t' ∈ (jsFirstLine text).data
            · simp [h1, h2, h3, hp, ht, List.count_pos_iff]
            · by_cases hc : ',' ∈ (jsFirstLine text).data
              · simp [h1, h2, h3, hp, ht, hc, List.count_pos_iff]
              · simp [h1, h2, h3, hp, ht, hc, List.count_pos_iff]
        · rw [Bool.not_eq_true] at h3
          simp [h1, h2, h3]
  have hnone : jsFileExtension fileName = "csv" ∨ jsFileExtension fileName = "parquet"
      ∨ jsFileExtension fileName = "json" →
      handleFileUploadLoadOptions fileName text = none := by
    intro hext
    rcases hext with h | h | h <;> simp [handleFileUploadLoadOptions, h]
  have htrace : (handleFileUpload fileName o).1.head?
      = some (.loadFile (handleFileUploadLoadOptions fileName text))
      ∧ UploadEvent.refreshSchemas ∈ (handleFileUpload fileName o).1.tail := by
    have hopts : jsFileExtension fileName ≠ "txt" →
        handleFileUploadLoadOptions fileName "" = handleFileUploadLoadOptions fileName text := by
      intro h
      have h' : (jsFileExtension fileName == "txt") = false := by
        simp [h]
      simp only [handleFileUploadLoadOptions, h', Bool.false_eq_true, if_false]
    obtain ⟨t, hteq, hopteq⟩ : ∃ t,
        (if jsFileExtension fileName == "txt" then o.textRead else Except.ok "")
          = Except.ok t
        ∧ handleFileUploadLoadOptions fileName t
          = handleFileUploadLoadOptions fileName text := by
      by_cases h3 : (jsFileExtension fileName == "txt") = true
      · exact ⟨text, by rw [if_pos h3, htext], rfl⟩
      · rw [Bool.not_eq_true] at h3
        refine ⟨"", by rw [h3]; simp, hopts ?_⟩
        intro hmm
        rw [hmm] at h3
        simp at h3
    rcases hdesc : o.describe with e | cols
    · unfold handleFileUpload
      rw [hteq]
      simp only [hload, hdesc, hopteq, uploadFinishEvents]
      rcases o.refresh with e' | u <;> simp
    · by_cases hdef : cols.contains "DEFAULT" = true
      · unfold handleFileUpload
        rw [hteq]
        simp only [hload, hdesc, hopteq, uploadFinishEvents, hdef, if_true]
        rcases o.rename with e' | u <;>
          · rcases o.refresh with e'' | u' <;> simp
      · rw [Bool.not_eq_true] at hdef
        unfold handleFileUpload
        rw [hteq]
        simp only [hload, hdesc, hopteq, uploadFinishEvents, hdef, Bool.false_eq_true, if_false]
        rcases o.refresh with e' | u <;> simp
  exact ⟨hmap, hnone, htrace.1, htrace.2⟩

/-- C2 witness: at a concrete pipe-delimited `.txt` upload, the mapping
matches the documented one and the schema refresh follows the load. -/
theorem upload_load_option_mapping_witness :
    handleFileUploadLoadOptions "data.txt" "a|b" = specLoadOptions "data.txt" "a|b"
    ∧ UploadEvent.refreshSchemas ∈
        (handleFileUpload "data.txt"
          ⟨.ok "a|b", .ok (), .ok ["a", "b"], .ok (), .ok ()⟩).1.tail :=
  ⟨(upload_load_option_mapping "data.txt" "a|b"
      ⟨.ok "a|b", .ok (), .ok ["a", "b"], .ok (), .ok ()⟩ rfl rfl).1,
   (upload_load_option_mapping "data.txt" "a|b"
      ⟨.ok "a|b", .ok (), .ok ["a", "b"], .ok (), .ok ()⟩ rfl rfl).2.2.2⟩

/-- The text-read scrutinee of `handleFileUpload` yields `.ok` whenever
the file's text reads successfully. -/
theorem upload_text_branch (fileName text : String) (o : UploadOracle)
    (htext : o.textRead = .ok text) :
    ∃ t, (if jsFileExtension fileName == "txt" then o.textRead else Except.ok "")
      = Except.ok t := by
  by_cases h3 : (jsFileExtension fileName == "txt") = true
  · exact ⟨text, by rw [if_pos h3, htext]⟩
  · rw [Bool.not_eq_true] at h3
    exact ⟨"", by rw [h3]; simp⟩

/-- C7: on both import paths, a table whose `DESCRIBE` reports a
`DEFAULT` column gets that column renamed to `DEFAULT_FLAG` (so no
reserved-keyword column remains), and a failing check-and-rename step
never fails the import (the success toast still fires). -/
theorem default_column_rename (fileName text : String) (o : UploadOracle)
    (cols : List String) :
    (o.textRead = .ok text → o.loadFile = .ok () → o.describe = .ok cols →
      cols.contains "DEFAULT" = true → o.rename = .ok () →
      (handleFileUpload fileName o).2 = some (renameDefaultCols cols)
      ∧ UploadEvent.renameDefaultColumn ∈ (handleFileUpload fileName o).1)
    ∧ (o.textRead = .ok text → o.loadFile = .ok () → o.refresh = .ok () →
        UploadEvent.toastSuccess ∈ (handleFileUpload fileName o).1)
    ∧ (o.loadFile = .ok () → o.describe = .ok cols →
        cols.contains "DEFAULT" = true → o.rename = .ok () →
        (handleFileDrop fileName o).2 = some (renameDefaultCols cols)
        ∧ UploadEvent.renameDefaultColumn ∈ (handleFileDrop fileName o).1)
    ∧ (o.loadFile = .ok () → UploadEvent.toastSuccess ∈ (handleFileDrop fileName o).1)
    ∧ (renameDefaultCols cols).contains "DEFAULT" = false := by
  refine ⟨?_, ?_, ?_, ?_, ?_⟩
  · intro htext hload hdesc hdef hren
    obtain ⟨t, hteq⟩ := upload_text_branch fileName text o htext
    unfold handleFileUpload
    rw [hteq]
    simp only [hload, hdesc, hdef, if_true, hren, uploadFinishEvents]
    simp
  · intro htext hload hrefresh
    obtain ⟨t, hteq⟩ := upload_text_branch fileName text o htext
    unfold handleFileUpload
    rw [hteq]
    simp only [hload, hrefresh, uploadFinishEvents]
    rcases o.describe with e | cols'
    · simp
    · by_cases hdef : cols'.contains "DEFAULT" = true
      · simp only [hdef, if_true]
        rcases o.rename with e' | u <;> simp
      · rw [Bool.not_eq_true] at hdef
        simp only [hdef, Bool.false_eq_true, if_false]
        simp
  · intro hload hdesc hdef hren
    unfold handleFileDrop
    simp only [hload, hdesc, hdef, if_true, hren]
    simp
  · intro hload
    unfold handleFileDrop
    simp only [hload]
    rcases o.describe with e | cols'
    · simp
    · by_cases hdef : cols'.contains "DEFAULT" = true
      · simp only [hdef, if_true]
        rcases o.rename with e' | u <;> simp
      · rw [Bool.not_eq_true] at hdef
        simp only [hdef, Bool.false_eq_true, if_false]
        simp
  · rw [renameDefaultCols]
    by_contra h
    rw [Bool.not_eq_false] at h
    have hmem : "DEFAULT" ∈ cols.map (fun c => if c == "DEFAULT" then "DEFAULT_FLAG" else c) := by
      simpa using h
    rw [List.mem_map] at hmem
    obtain ⟨c, _, hc⟩ := hmem
    by_cases hceq : (c == "DEFAULT") = true
    · rw [hceq, if_pos rfl] at hc
      simp at hc
    · rw [Bool.not_eq_true] at hceq
      rw [hceq] at hc
      simp only [Bool.false_eq_true, if_false] at hc
      rw [hc] at hceq
      simp at hceq

/-- C7 witness: a concrete upload whose table has a `DEFAULT` column ends
with the column renamed, and the trace still shows a successful import. -/
theorem default_column_rename_witness :
    (handleFileUpload "loans.csv"
        ⟨.ok "", .ok (), .ok ["id", "DEFAULT"], .ok (), .ok ()⟩).2
      = some (renameDefaultCols ["id", "DEFAULT"])
    ∧ UploadEvent.toastSuccess ∈
        (handleFileDrop "loans.csv"
          ⟨.ok "", .ok (), .ok ["id", "DEFAULT"], .ok (), .ok ()⟩).1 :=
  ⟨((default_column_rename "loans.csv" ""
      ⟨.ok "", .ok (), .ok ["id", "DEFAULT"], .ok (), .ok ()⟩
      ["id", "DEFAULT"]).1 rfl rfl rfl (by decide) rfl).1,
   (default_column_rename "loans.csv" ""
      ⟨.ok "", .ok (), .ok ["id", "DEFAULT"], .ok (), .ok ()⟩
      ["id", "DEFAULT"]).2.2.2.1 rfl⟩

/-! ## DDL-enabled query tool (src/tools/index.ts) -/

/-- The keywords of the schema-refresh regex
`/^\s*(CREATE|DROP|ALTER|TRUNCATE|RENAME)\s/i`, lowercased. -/
def ddlKeywords : List String :=
  ["create", "drop", "alter", "truncate", "rename"]

/-- Match one keyword at the start of the text, requiring a whitespace
character right after it (the regex's trailing `\s`). -/
def matchKeywordWs : List Char → List Char → Bool
  | [], c :: _ => isJsWhitespace c
  | [], [] => false
  | k :: ks, c :: cs => (k == c) && matchKeywordWs ks cs
  | _ :: _, [] => false

/-- `/^\s*(CREATE|DROP|ALTER|TRUNCATE|RENAME)\s/i.test(sqlQuery.trim())`:
after `trim` no leading whitespace remains, so the keyword must sit at
position 0 and be followed by a whitespace character; `/i` is modelled by
lowercasing the text. -/
def isDDLStatement (sqlQuery : String) : Bool :=
  let t := (jsToLower (jsTrim sqlQuery)).data
  ddlKeywords.any (fun kw => matchKeywordWs kw.data t)

/-- Claim C10's stated trigger condition: the query text begins, after
optional whitespace, with one of the keywords (case-insensitively) — with
no requirement of a following whitespace character. -/
def specBeginsWithDDL (sqlQuery : String) : Bool :=
  let t := (jsToLower sqlQuery).data.dropWhile isJsWhitespace
  ddlKeywords.any (fun kw => kw.data.isPrefixOf t)

/-- The amended trigger condition: the trimmed query text begins with a
keyword followed by a whitespace character (case-insensitively). -/
def specDDLRefreshCondition (sqlQuery : String) : Bool :=
  let t := (jsToLower (jsTrim sqlQuery)).data
  ddlKeywords.any (fun kw =>
    kw.data.isPrefixOf t
      && (match t.drop kw.data.length with
          | c :: _ => isJsWhitespace c
          | [] => false))

theorem matchKeywordWs_eq (kw : List Char) (l : List Char) :
    matchKeywordWs kw l
      = (kw.isPrefixOf l
          && (match l.drop kw.length with
              | c :: _ => isJsWhitespace c
              | [] => false)) := by
  induction kw generalizing l with
  | nil => cases l <;> simp [matchKeywordWs, List.isPrefixOf]
  | cons k ks ih =>
    cases l with
    | nil => simp [matchKeywordWs, List.isPrefixOf]
    | cons c cs =>
      simp only [matchKeywordWs, List.isPrefixOf, List.length_cons, List.drop_succ_cons,
        ih cs, Bool.and_assoc]

/-- The structured result the tool hands back to the LLM layer. -/
structure DDLToolResult where
  success : Bool
  firstRows : List SqlRow
  errorMessage : Option String
  isLimitedResult : Bool
deriving DecidableEq

/-- The DDL query tool's `execute`: everything runs inside one try/catch,
so the function is total (never throws) and returns a structured result.
Inputs: whether the store context and connector are available, the query
text, the engine's response to `connector.query` and the outcome of
`refreshTableSchemas`.  The second component records whether the refresh
was invoked. -/
def ddlQueryToolExecute (ctxOk connOk : Bool) (sqlQuery : String)
    (queryResult : Except String (List SqlRow)) (refreshResult : Except String Unit) :
    DDLToolResult × Bool :=
  if !ctxOk then (⟨false, [], some "Store context not available", false⟩, false)
  else if !connOk then (⟨false, [], some "Database connector not available", false⟩, false)
  else
    match queryResult with
    | .error m => (⟨false, [], some m, false⟩, false)
    | .ok rows =>
      if isDDLStatement sqlQuery then
        match refreshResult with
        | .ok _ => (⟨true, rows.take 100, none, decide (rows.length > 100)⟩, true)
        | .error m => (⟨false, [], some m, false⟩, true)
      else (⟨true, rows.take 100, none, decide (rows.length > 100)⟩, false)

/-- C10 counterexample: (i) a query beginning with `DROP` whose execution
fails performs no refresh, though the claim's trigger condition holds;
(ii) the bare query `"CREATE"` (no character after the keyword) also
performs no refresh even when it executes successfully. -/
theorem ddl_refresh_counterexample :
    (specBeginsWithDDL "DROP TABLE t" = true
      ∧ (ddlQueryToolExecute true true "DROP TABLE t" (.error "boom") (.ok ())).2 = false)
    ∧ (specBeginsWithDDL "CREATE" = true
      ∧ (ddlQueryToolExecute true true "CREATE" (.ok []) (.ok ())).2 = false) := by
  decide

/-- C10 amended: the tool is total by construction; the schema refresh is
invoked exactly when context and connector are available, the query
executes successfully, and the trimmed query begins with a DDL keyword
followed by whitespace (the regex condition); `success` is true exactly
when additionally any required refresh succeeded; a successful result
carries the first 100 rows with `isLimitedResult` set exactly when more
than 100 rows exist; a failed query reports its error message. -/
theorem ddl_query_tool_behavior (ctxOk connOk : Bool) (sqlQuery : String)
    (queryResult : Except String (List SqlRow)) (refreshResult : Except String Unit) :
    isDDLStatement sqlQuery = specDDLRefreshCondition sqlQuery
    ∧ ((ddlQueryToolExecute ctxOk connOk sqlQuery queryResult refreshResult).2 = true
        ↔ (ctxOk = true ∧ connOk = true ∧ (∃ rows, queryResult = .ok rows)
            ∧ isDDLStatement sqlQuery = true))
    ∧ ((ddlQueryToolExecute ctxOk connOk sqlQuery queryResult refreshResult).1.success = true
        ↔ (ctxOk = true ∧ connOk = true ∧ (∃ rows, queryResult = .ok rows)
            ∧ (isDDLStatement sqlQuery = true → refreshResult = .ok ())))
    ∧ (∀ rows, queryResult = .ok rows → ctxOk = true → connOk = true →
        (isDDLStatement sqlQuery = true → refreshResult = .ok ()) →
        (ddlQueryToolExecute ctxOk connOk sqlQuery queryResult refreshResult).1.firstRows
            = rows.take 100
        ∧ (ddlQueryToolExecute ctxOk connOk sqlQuery queryResult refreshResult).1.isLimitedResult
            = decide (rows.length > 100))
    ∧ (∀ m, queryResult = .error m → ctxOk = true → connOk = true →
        (ddlQueryToolExecute ctxOk connOk sqlQuery queryResult refreshResult).1.errorMessage
          = some m) := by
  have hdef : isDDLStatement sqlQuery = specDDLRefreshCondition sqlQuery := by
    rw [isDDLStatement, specDDLRefreshCondition]
    have : (fun kw : String => matchKeywordWs kw.data (jsToLower (jsTrim sqlQuery)).data)
        = (fun kw : String =>
            kw.data.isPrefixOf (jsToLower (jsTrim sqlQuery)).data
              && (match (jsToLower (jsTrim sqlQuery)).data.drop kw.data.length with
                  | c :: _ => isJsWhitespace c
                  | [] => false)) := by
      funext kw
      exact matchKeywordWs_eq kw.data _
    rw [this]
  refine ⟨hdef, ?_, ?_, ?_, ?_⟩ <;>
    (cases ctxOk <;> cases connOk <;>
      rcases queryResult with m | rows <;>
      rcases refreshResult with e | u <;>
      by_cases hddl : isDDLStatement sqlQuery = true <;>
      simp [ddlQueryToolExecute, hddl])

/-- C10 witness: a successful `CREATE TABLE` run through the tool invokes
the refresh and returns the rows unlimited. -/
theorem ddl_query_tool_behavior_witness :
    (ddlQueryToolExecute true true "CREATE TABLE t(a int)" (.ok []) (.ok ())).1.firstRows
      = ([] : List SqlRow).take 100
    ∧ (ddlQueryToolExecute true true "CREATE TABLE t(a int)"
        (.ok []) (.ok ())).1.isLimitedResult = decide (([] : List SqlRow).length > 100) :=
  (ddl_query_tool_behavior true true "CREATE TABLE t(a int)"
    (.ok []) (.ok ())).2.2.2.1 [] rfl rfl rfl (fun _ => rfl)

/-! ## Temporary virtual files in import/export
(src/utils/exportTable.ts, src/utils/exportDatabase.ts,
src/utils/importDuckDB.ts) -/

/-- Single-table export formats. -/
inductive ExportFormat where
  | csv
  | pipe
  | parquet
deriving DecidableEq

/-- Events of `exportSingleTable`: the `COPY ... TO` statement (which
creates the temporary virtual file), `copyFileToBuffer`, the browser
download, the `dropFile` cleanup attempt, and the OOM check of the catch
block. -/
inductive ExportEvent where
  | execCopy
  | copyToBuffer
  | download
  | dropTempFile
  | oomCheck
deriving DecidableEq

/-- Outcomes of `exportSingleTable`'s engine calls: the `COPY` statement
and the buffer extraction (returning the byte length); a `dropFile`
failure is swallowed by its own try/catch and does not change the trace. -/
structure SingleExportOracle where
  exec : Except String Unit
  copyBuf : Except String Nat

/-- `exportSingleTable`: trace of events and whether the call re-throws.
The cleanup `dropFile` sits at the end of the `try` block (not in a
`finally`), after the download; an empty buffer is converted into a
thrown error. -/
def exportSingleTable (format : ExportFormat) (o : SingleExportOracle) :
    List ExportEvent × Bool :=
  match format, o.exec with
  | _, .error _ => ([.execCopy, .oomCheck], true)
  | _, .ok _ =>
    match o.copyBuf with
    | .error _ => ([.execCopy, .copyToBuffer, .oomCheck], true)
    | .ok len =>
      if len == 0 then ([.execCopy, .copyToBuffer, .oomCheck], true)
      else ([.execCopy, .copyToBuffer, .download, .dropTempFile], false)

/-- Events of the whole-database export. -/
inductive DbExportEvent where
  | tablesQuery
  | copyTableParquet (tableName : String)
  | copyTableCsv (tableName : String)
  | zipGenerate
  | download
  | dropTableFiles (tableName : String)
  | oomCheck
deriving DecidableEq

/-- Outcomes of the whole-database export's calls: the table-list query,
the per-table Parquet export (COPY + buffer extraction), the per-table
CSV fallback, and the ZIP generation. -/
structure DbExportOracle where
  tablesQuery : Except String (List String)
  parquet : String → Except String Nat
  csv : String → Except String Nat
  zipGen : Except String Unit

/-- One table's events inside the export loop: the Parquet `COPY` and
extraction, falling back to a CSV `COPY` when it fails (a failing
fallback is also caught, adding no further event). -/
def dbExportTableEvents (o : DbExportOracle) (t : String) : List DbExportEvent :=
  match o.parquet t with
  | .ok _ => [.copyTableParquet t]
  | .error _ =>
    match o.csv t with
    | .ok _ => [.copyTableParquet t, .copyTableCsv t]
    | .error _ => [.copyTableParquet t, .copyTableCsv t]

/-- `exportDatabase`: per-table failures are caught inside the loop (with
a CSV fallback), the outer catch swallows everything else, and the
per-table `dropFile` cleanup loop runs at the end of the `try`, after the
ZIP was generated and the download started. -/
def exportDatabase (o : DbExportOracle) : List DbExportEvent :=
  match o.tablesQuery with
  | .error _ => [.tablesQuery, .oomCheck]
  | .ok tables =>
    if tables.isEmpty then [.tablesQuery]
    else
      let perTable := (tables.map (dbExportTableEvents o)).flatten
      match o.zipGen with
      | .error _ => [DbExportEvent.tablesQuery] ++ perTable
          ++ [DbExportEvent.zipGenerate, DbExportEvent.oomCheck]
      | .ok _ => [DbExportEvent.tablesQuery] ++ perTable
          ++ [DbExportEvent.zipGenerate, DbExportEvent.download]
          ++ tables.map (fun t => DbExportEvent.dropTableFiles t)

/-- Events of `importDuckDBFile`. -/
inductive ImportEvent where
  | registerTempFile
  | extractTables
  | createSchemaTables
  | toastSuccess
  | toastFailure
  | cleanupTempFile
  | oomCheck
deriving DecidableEq

/-- Outcomes of `importDuckDBFile`'s steps: obtaining the connector
(outside the `try`), registering the uploaded bytes as a temp file,
extracting the table list, and creating the schema and tables. -/
structure ImportOracle where
  connectorOk : Bool
  register : Except String Unit
  extract : Except String (List String)
  create : Except String Unit

/-- `importDuckDBFile`: trace of events and whether the call throws.  The
`finally` block runs `cleanupTempDatabase` whenever `tempFileName` was
set, i.e. whenever registration succeeded — on success, failure and the
empty-database throw alike (cleanup errors are swallowed inside it). -/
def importDuckDBFile (o : ImportOracle) : List ImportEvent × Bool :=
  if !o.connectorOk then ([], true)
  else
    match o.register with
    | .error _ => ([.oomCheck, .toastFailure], false)
    | .ok _ =>
      match o.extract with
      | .error _ => ([.registerTempFile, .oomCheck, .toastFailure, .cleanupTempFile], false)
      | .ok tables =>
        if tables.isEmpty then
          ([.registerTempFile, .extractTables, .oomCheck, .toastFailure,
            .cleanupTempFile], false)
        else
          match o.create with
          | .error _ =>
            ([.registerTempFile, .extractTables, .oomCheck, .toastFailure,
              .cleanupTempFile], false)
          | .ok _ =>
            ([.registerTempFile, .extractTables, .createSchemaTables, .toastSuccess,
              .cleanupTempFile], false)

/-- C3 counterexample: when the single-table export's `COPY` succeeds
(creating the temporary file) but `copyFileToBuffer` fails, the function
re-throws without ever deleting the temporary file — the cleanup is not
in a `finally` block. -/
theorem export_cleanup_counterexample :
    ExportEvent.execCopy ∈ (exportSingleTable .csv ⟨.ok (), .error "buffer failed"⟩).1
    ∧ ExportEvent.dropTempFile ∉ (exportSingleTable .csv ⟨.ok (), .error "buffer failed"⟩).1
    ∧ (exportSingleTable .csv ⟨.ok (), .error "buffer failed"⟩).2 = true := by
  decide

theorem mem_dbExportTableEvents {o : DbExportOracle} {t : String} {ev : DbExportEvent}
    (h : ev ∈ dbExportTableEvents o t) :
    ev = .copyTableParquet t ∨ ev = .copyTableCsv t := by
  unfold dbExportTableEvents at h
  rcases hp : o.parquet t with e | u
  · rw [hp] at h
    rcases hc : o.csv t with e' | u' <;> rw [hc] at h <;> simpa using h
  · rw [hp] at h
    exact Or.inl (by simpa using h)

/-- C3 amended: the database-file import deletes its temporary file in a
`finally` block on every path after registration; the single-table export
deletes its temporary file exactly on the fully successful path (`COPY`
and buffer extraction succeeded with a non-empty buffer); the
whole-database export attempts per-table cleanup exactly after the ZIP
generation succeeded, and never when it failed. -/
theorem temp_file_cleanup (f : ExportFormat) (so : SingleExportOracle)
    (dbo : DbExportOracle) (io : ImportOracle) :
    (io.connectorOk = true → io.register = .ok () →
      ImportEvent.cleanupTempFile ∈ (importDuckDBFile io).1)
    ∧ (ExportEvent.dropTempFile ∈ (exportSingleTable f so).1
        ↔ (so.exec = .ok () ∧ ∃ n, so.copyBuf = .ok n ∧ n ≠ 0))
    ∧ (∀ tables, dbo.tablesQuery = .ok tables → dbo.zipGen = .ok () →
        ∀ t ∈ tables, DbExportEvent.dropTableFiles t ∈ exportDatabase dbo)
    ∧ (∀ e, dbo.zipGen = .error e →
        ∀ t, DbExportEvent.dropTableFiles t ∉ exportDatabase dbo) := by
  refine ⟨?_, ?_, ?_, ?_⟩
  · intro hc hr
    unfold importDuckDBFile
    simp only [hc, Bool.not_true, Bool.false_eq_true, if_false, hr]
    rcases io.extract with e | tables
    · simp
    · by_cases hemp : tables.isEmpty = true
      · simp [hemp]
      · rw [Bool.not_eq_true] at hemp
        simp only [hemp, Bool.false_eq_true, if_false]
        rcases io.create with e' | u <;> simp
  · cases f <;>
      (rcases hse : so.exec with e | u
       · simp [exportSingleTable, hse]
       · rcases hsb : so.copyBuf with e' | len
         · simp [exportSingleTable, hse, hsb]
         · by_cases hlen : len = 0
           · simp [exportSingleTable, hse, hsb, hlen]
           · simp [exportSingleTable, hse, hsb, hlen])
  · intro tables htab hzip t ht
    unfold exportDatabase
    rw [htab]
    rcases tables with _ | ⟨a, rest⟩
    · simp at ht
    · simp only [List.isEmpty_cons, Bool.false_eq_true, if_false, hzip]
      exact List.mem_append_right _ (List.mem_map_of_mem _ ht)
  · intro e hzip t hmem
    unfold exportDatabase at hmem
    rcases htab : dbo.tablesQuery with e' | tables <;> rw [htab] at hmem
    · simp at hmem
    · by_cases hemp : tables.isEmpty = true
      · simp only [hemp, if_true] at hmem
        simp at hmem
      · rw [Bool.not_eq_true] at hemp
        simp only [hemp, Bool.false_eq_true, if_false, hzip] at hmem
        rcases List.mem_append.mp hmem with h | h
        · rcases List.mem_append.mp h with h | h
          · simp at h
          · rw [List.mem_flatten] at h
            obtain ⟨l, hl, hm⟩ := h
            rw [List.mem_map] at hl
            obtain ⟨t', _, rfl⟩ := hl
            rcases mem_dbExportTableEvents hm with h | h <;> simp at h
        · simp at h

/-- C3 amended witness: a concrete successful import and export both
perform their cleanup. -/
theorem temp_file_cleanup_witness :
    ImportEvent.cleanupTempFile ∈
      (importDuckDBFile ⟨true, .ok (), .ok ["t1"], .ok ()⟩).1
    ∧ ExportEvent.dropTempFile ∈
        (exportSingleTable .parquet ⟨.ok (), .ok 42⟩).1 :=
  ⟨(temp_file_cleanup .parquet ⟨.ok (), .ok 42⟩
      ⟨.ok ["t1"], fun _ => .ok 1, fun _ => .ok 1, .ok ()⟩
      ⟨true, .ok (), .ok ["t1"], .ok ()⟩).1 rfl rfl,
   (temp_file_cleanup .parquet ⟨.ok (), .ok 42⟩
      ⟨.ok ["t1"], fun _ => .ok 1, fun _ => .ok 1, .ok ()⟩
      ⟨true, .ok (), .ok ["t1"], .ok ()⟩).2.1.mpr ⟨rfl, 42, rfl, by decide⟩⟩
